import Mathlib

/-!
# Air-canvas gesture-to-geometry pipeline: a shallow embedding

This file embeds the algorithmic core of the air-canvas repository in Lean:
the gesture classifier and point stabilizer of `src/hooks/usehandtracking.ts`,
the stroke recorder of `src/src/components/drawing-canvas.tsx`, and the
curve synthesizer / mesh builder of `src/src/components/three-scene.tsx`.
JavaScript numbers are modelled as rationals; per-frame callback effects are
modelled as explicit event records returned by the frame-step function.
-/

set_option autoImplicit false

namespace AirCanvas

/-- A 2D point (canvas pixel space), as in the `Point` interface shared by the
hook, the drawing canvas and the three-scene components. -/
structure Point where
  x : ℚ
  y : ℚ
deriving DecidableEq, Repr

/-- One MediaPipe hand landmark: a normalized image-space position.  The `z`
coordinate is never read by the pipeline and is omitted. -/
structure Landmark where
  x : ℚ
  y : ℚ
deriving DecidableEq, Repr

/-- A detected hand: 21 landmarks indexed by anatomical role
(wrist = 0, index tip = 8, etc.), as given by `results.multiHandLandmarks[0]`. -/
def Hand : Type := Fin 21 → Landmark

/-- `isFingerExtended` from `usehandtracking.ts` (lines 76-84): a finger is
extended iff its tip landmark is strictly above its PIP joint, which is
strictly above its MCP joint (smaller `y` is higher on screen). -/
def isFingerExtended (landmarks : Hand) (tipIdx pipIdx mcpIdx : Fin 21) : Bool :=
  decide ((landmarks tipIdx).y < (landmarks pipIdx).y) &&
  decide ((landmarks pipIdx).y < (landmarks mcpIdx).y)

/-- The drawing-gesture test of `processResults`: only the index finger is
extended (middle, ring and pinky flexed; the thumb is ignored). -/
def isDrawingNow (landmarks : Hand) : Bool :=
  isFingerExtended landmarks 8 6 5 &&
  !isFingerExtended landmarks 12 10 9 &&
  !isFingerExtended landmarks 16 14 13 &&
  !isFingerExtended landmarks 20 18 17

/-- The raw fingertip sample of `processResults`: the index-tip landmark
(index 8) scaled into canvas pixel space. -/
def rawFingertip (landmarks : Hand) (w h : ℚ) : Point :=
  ⟨(landmarks 8).x * w, (landmarks 8).y * h⟩

/-- Output of the gesture classifier for one frame. -/
structure ClassifyResult where
  drawingSignal : Bool
  fingertip : Option Point
deriving DecidableEq, Repr

/-- The classification portion of `processResults`: with a hand present the
drawing signal is the index-only-extended test and the fingertip is the scaled
index tip; with no hand the signal is false and the fingertip is null. -/
def classify (hand : Option Hand) (w h : ℚ) : ClassifyResult :=
  match hand with
  | none => ⟨false, none⟩
  | some landmarks => ⟨isDrawingNow landmarks, some (rawFingertip landmarks w h)⟩

/-- The drawing signal of a frame: false when no hand is present. -/
def frameSignal (hand : Option Hand) : Bool :=
  match hand with
  | none => false
  | some landmarks => isDrawingNow landmarks

/-- A test hand pose realizing a chosen extended/flexed status for each of the
four non-thumb fingers.  For an extended finger the tip, PIP and MCP `y`
coordinates are `1 < 2 < 3`; for a flexed finger they are `3 > 2 > 1`, so the
tip-above-PIP test fails. -/
def mkHand (indexExt middleExt ringExt pinkyExt : Bool) : Hand := fun j =>
  let v := j.val
  let ext : Bool :=
    if v ≤ 8 then indexExt
    else if v ≤ 12 then middleExt
    else if v ≤ 16 then ringExt
    else pinkyExt
  let tipRole : Bool := v = 8 ∨ v = 12 ∨ v = 16 ∨ v = 20
  let pipRole : Bool := v = 6 ∨ v = 10 ∨ v = 14 ∨ v = 18
  ⟨0, if tipRole then (if ext then 1 else 3)
      else if pipRole then 2
      else if ext then 3 else 1⟩

/-! ## Point stabilizer (`LightSmoother`, `usehandtracking.ts` lines 18-46) -/

/-- Internal state of `LightSmoother`: the `lastPoint` field, `null` right
after construction or `reset()`. -/
structure SmootherState where
  lastPoint : Option Point
deriving DecidableEq, Repr

namespace LightSmoother

/-- `LightSmoother.smooth`: the first call seeds `lastPoint` and returns the
input unchanged; later calls move each axis toward the input by the
responsiveness factor and store the result. -/
def smooth (factor : ℚ) (s : SmootherState) (point : Point) : Point × SmootherState :=
  match s.lastPoint with
  | none => (point, ⟨some point⟩)
  | some last =>
      let smoothed : Point :=
        ⟨last.x + (point.x - last.x) * factor,
         last.y + (point.y - last.y) * factor⟩
      (smoothed, ⟨some smoothed⟩)

/-- `LightSmoother.reset`: clears the stored point. -/
def reset (_ : SmootherState) : SmootherState := ⟨none⟩

end LightSmoother

/-- Repeated smoothing of the constant input `c`: `smoothIter factor c s n` is
the smoother state after `n` further `smooth c` calls starting from `s`. -/
def smoothIter (factor : ℚ) (c : Point) (s : SmootherState) : ℕ → SmootherState
  | 0 => s
  | n + 1 => (LightSmoother.smooth factor (smoothIter factor c s n) c).2

/-! ## Per-frame processing (`processResults`, `usehandtracking.ts` lines 89-262)

The canvas drawing calls are pure presentation; the state-relevant effects of
one `processResults` invocation are the `onDrawingPoint` / `onDrawingEnd`
callback invocations and the smoother `reset()` calls, recorded here as an
explicit event record. -/

/-- The mutable refs of the hook that the per-frame path reads and writes:
`prevDrawingState` and the `LightSmoother` state. -/
structure TrackState where
  prevDrawing : Bool
  smoother : SmootherState
deriving DecidableEq, Repr

/-- Observable effects of one frame: the `onDrawingPoint` arguments in call
order, the number of `onDrawingEnd` calls, and the number of smoother
`reset()` calls. -/
structure FrameEvents where
  pointEmits : List Point
  endEmits : ℕ
  resets : ℕ
deriving DecidableEq, Repr

/-- One invocation of `processResults` on a frame that reaches the
classification logic (canvas present with nonzero size).  With a hand present
the fingertip is smoothed, then either `onDrawingPoint` fires (drawing pose)
or, on a Drawing-to-Idle edge, the smoother is reset and `onDrawingEnd`
fires; `prevDrawingState` is updated to the current signal.  With no hand, a
previously drawing state is likewise reset and ended. -/
def processResults (factor : ℚ) (s : TrackState) (hand : Option Hand) (w h : ℚ) :
    TrackState × FrameEvents :=
  match hand with
  | some landmarks =>
      let drawing := isDrawingNow landmarks
      let raw := rawFingertip landmarks w h
      let res := LightSmoother.smooth factor s.smoother raw
      if drawing then
        (⟨true, res.2⟩, ⟨[res.1], 0, 0⟩)
      else if s.prevDrawing then
        (⟨false, LightSmoother.reset res.2⟩, ⟨[], 1, 1⟩)
      else
        (⟨false, res.2⟩, ⟨[], 0, 0⟩)
  | none =>
      if s.prevDrawing then
        (⟨false, LightSmoother.reset s.smoother⟩, ⟨[], 1, 1⟩)
      else
        (s, ⟨[], 0, 0⟩)

/-! ## Stroke recorder (`drawing-canvas.tsx` lines 29-162) -/

/-- `MIN_DISTANCE_SQ` from `drawing-canvas.tsx`: squared minimum distance
(about 2px) between consecutively stored points. -/
def MIN_DISTANCE_SQ : ℚ := 4

/-- Squared Euclidean distance, as computed in `addPoint`. -/
def distSq (a b : Point) : ℚ :=
  (b.x - a.x) * (b.x - a.x) + (b.y - a.y) * (b.y - a.y)

/-- The refs of `DrawingCanvas` that record stroke state: the completed
strokes, the in-progress stroke, and the last / previous accepted points. -/
structure RecorderState where
  strokes : List (List Point)
  currentStroke : List Point
  lastPoint : Option Point
  previousPoint : Option Point
deriving DecidableEq, Repr

/-- The recorder right after mount: nothing stored. -/
def initialRecorder : RecorderState := ⟨[], [], none, none⟩

/-- `addPoint`: the first point of a stroke is accepted unconditionally and
seeds `lastPoint`; later points are dropped when their squared distance to the
last accepted point is below `MIN_DISTANCE_SQ`, otherwise appended. -/
def addPoint (s : RecorderState) (point : Point) : RecorderState :=
  match s.lastPoint with
  | none =>
      { s with currentStroke := s.currentStroke ++ [point],
               lastPoint := some point,
               previousPoint := none }
  | some last =>
      if distSq last point < MIN_DISTANCE_SQ then s
      else
        { s with currentStroke := s.currentStroke ++ [point],
                 previousPoint := some last,
                 lastPoint := some point }

/-- `endStroke`: an in-progress stroke of more than one point is appended to
the completed collection; the in-progress stroke and the last / previous
point bookkeeping are always cleared. -/
def endStroke (s : RecorderState) : RecorderState :=
  { strokes := if 1 < s.currentStroke.length
               then s.strokes ++ [s.currentStroke]
               else s.strokes,
    currentStroke := [],
    lastPoint := none,
    previousPoint := none }

/-- `clear`: full reset of the recorder. -/
def clear (_ : RecorderState) : RecorderState := initialRecorder

/-- `getStrokes`: the completed-stroke collection. -/
def getStrokes (s : RecorderState) : List (List Point) := s.strokes

/-- One recorder operation, for stating invariants over arbitrary call
sequences on the `DrawingCanvas` handle. -/
inductive RecorderOp where
  | add (point : Point)
  | endOp
  | clearOp
deriving DecidableEq, Repr

/-- Apply one recorder operation. -/
def applyOp (s : RecorderState) : RecorderOp → RecorderState
  | .add point => addPoint s point
  | .endOp => endStroke s
  | .clearOp => clear s

/-- Run a sequence of recorder operations from a state. -/
def runOps (s : RecorderState) (ops : List RecorderOp) : RecorderState :=
  ops.foldl applyOp s

/-- The per-frame pipeline as wired in `App.tsx`: `onDrawingPoint` is
`addPoint` on the drawing canvas, and `onDrawingEnd` finalizes the stroke via
`endStroke`.  The hook emits at most one point or one end per frame. -/
def pipelineStep (factor : ℚ) (st : TrackState × RecorderState) (hand : Option Hand)
    (w h : ℚ) : (TrackState × RecorderState) × FrameEvents :=
  let res := processResults factor st.1 hand w h
  let rec1 := res.2.pointEmits.foldl addPoint st.2
  let rec2 := if res.2.endEmits = 0 then rec1 else endStroke rec1
  ((res.1, rec2), res.2)

/-! ## Curve synthesizer and mesh builder (`three-scene.tsx`) -/

/-- JavaScript `Math.round`: round half toward positive infinity. -/
def jsRound (q : ℚ) : ℤ := ⌊q + 1/2⌋

/-- The corner-cutting pair replacement of one Chaikin pass: every adjacent
pair `(P0, P1)` contributes the two points at `0.75·P0 + 0.25·P1` and
`0.25·P0 + 0.75·P1`, in order. -/
def chaikinPairs : List Point → List Point
  | [] => []
  | [_] => []
  | p0 :: p1 :: rest =>
      ⟨3/4 * p0.x + 1/4 * p1.x, 3/4 * p0.y + 1/4 * p1.y⟩ ::
      ⟨1/4 * p0.x + 3/4 * p1.x, 1/4 * p0.y + 3/4 * p1.y⟩ ::
      chaikinPairs (p1 :: rest)

/-- One pass of the loop body of `chaikinSmooth`: keep the first point, emit
the two cut points of every adjacent pair, keep the last point. -/
def chaikinPass : List Point → List Point
  | [] => []
  | p :: rest => p :: (chaikinPairs (p :: rest) ++ [rest.getLastD p])

/-- `chaikinSmooth` from `three-scene.tsx` (lines 12-43): inputs of fewer
than 3 points are returned unchanged; otherwise the pass is iterated. -/
def chaikinSmooth (points : List Point) (iterations : ℕ) : List Point :=
  if points.length < 3 then points else chaikinPass^[iterations] points

/-- The selected index of the downsampling stage: `i` times the linear step,
rounded, clamped to the last index. -/
def downsampleIdx (len targetCount i : ℕ) : ℕ :=
  min ((jsRound ((i : ℚ) * (((len : ℚ) - 1) / ((targetCount : ℚ) - 1)))).toNat)
      (len - 1)

/-- `downsample` from `three-scene.tsx` (lines 46-58): inputs no longer than
the target pass through unchanged; longer inputs are reduced to exactly
`targetCount` points selected at evenly spaced rounded indices. -/
def downsample (points : List Point) (targetCount : ℕ) : List Point :=
  if points.length ≤ targetCount then points
  else
    (List.range targetCount).map
      (fun i => points.getD (downsampleIdx points.length targetCount i) ⟨0, 0⟩)

/-- Tube radius constant of `three-scene.tsx`. -/
def TUBE_RADIUS : ℚ := 12/100

/-- Radial segment constant of `three-scene.tsx`. -/
def RADIAL_SEGMENTS : ℕ := 12

/-- The inline normalize-center-downsample loop of the `ClayTube` geometry
memo: pick at most 30 evenly spaced stroke points and map each into model
space via `x·scaleX − 2.5` and `−(y·scaleY − 2)`. -/
def clayNormalize (stroke : List Point) (scaleX scaleY : ℚ) : List Point :=
  let len := stroke.length
  let maxPoints := min len 30
  let step : ℚ := if maxPoints < len then ((len : ℚ) - 1) / ((maxPoints : ℚ) - 1) else 1
  (List.range maxPoints).map (fun (i : ℕ) =>
    let p := stroke.getD (min ((jsRound ((i : ℚ) * step)).toNat) (len - 1)) ⟨0, 0⟩
    ⟨p.x * scaleX - 5/2, -(p.y * scaleY - 2)⟩)

/-- The deterministic data from which the `ClayTube` tube geometry is built:
the smoothed 2D control points (each point `i` is lifted to `z =
sin(i·0.15)·0.15 + zOffset`), the z offset, and the tube parameters.  The
`THREE.TubeGeometry` produced by the component is a fixed deterministic
function of this record. -/
structure MeshSpec where
  points2D : List Point
  zOffset : ℚ
  tubularSegments : ℕ
  radius : ℚ
  radialSegments : ℕ
deriving DecidableEq, Repr

/-- The `ClayTube` geometry memo body (`three-scene.tsx` lines 81-124):
strokes of fewer than 3 points yield no geometry; otherwise the stroke is
normalized and downsampled, smoothed by 3 Chaikin passes, and swept into a
tube with `min(3·pointCount, 64)` tubular segments — unless fewer than 2
points remain, in which case no geometry is produced. -/
def buildGeometry (stroke : List Point) (scaleX scaleY zOffset : ℚ) : Option MeshSpec :=
  if stroke.length < 3 then none
  else
    let smoothedPoints := chaikinSmooth (clayNormalize stroke scaleX scaleY) 3
    if smoothedPoints.length < 2 then none
    else
      some ⟨smoothedPoints, zOffset,
            min (smoothedPoints.length * 3) 64, TUBE_RADIUS, RADIAL_SEGMENTS⟩

/-- The geometry of the `ClayTube` at position `index` in the scene: scale
factors `5/width` and `4/height`, z offset `index · 0.5`. -/
def clayGeometry (stroke : List Point) (index : ℕ) (canvasWidth canvasHeight : ℚ) :
    Option MeshSpec :=
  buildGeometry stroke (5 / canvasWidth) (4 / canvasHeight) ((index : ℚ) * (1/2))

/-- The geometries of the whole `ThreeScene`: one `ClayTube` per stroke, in
insertion order. -/
def sceneMeshes (strokes : List (List Point)) (canvasWidth canvasHeight : ℚ) :
    List (Option MeshSpec) :=
  strokes.mapIdx (fun index stroke => clayGeometry stroke index canvasWidth canvasHeight)

/-! ## Scenario inputs used by individual counterexamples -/

/-- A hand pose with only the index finger extended, held at a fixed
position (used by the emission-vs-filter counterexample). -/
def demoHand : Option Hand := some (mkHand true false false false)

/-- The pipeline state after one frame of `demoHand` on a 100×100 canvas,
starting from the initial tracking and recorder state. -/
def demoFrame1 : (TrackState × RecorderState) × FrameEvents :=
  pipelineStep (4/5) (⟨false, ⟨none⟩⟩, initialRecorder) demoHand 100 100

/-- The pipeline state after a second identical frame of `demoHand`. -/
def demoFrame2 : (TrackState × RecorderState) × FrameEvents :=
  pipelineStep (4/5) demoFrame1.1 demoHand 100 100

/-- A 3-point stroke (used by the geometry-key counterexample). -/
def strokeA : List Point := [⟨0, 0⟩, ⟨10, 0⟩, ⟨20, 0⟩]

/-- Another 3-point stroke with the same point count as `strokeA` but
different contents. -/
def strokeB : List Point := [⟨0, 1⟩, ⟨10, 1⟩, ⟨20, 1⟩]

/-- The spacing invariant of the stroke recorder: every pair of consecutive
points in every completed stroke and in the in-progress stroke is at squared
distance at least `MIN_DISTANCE_SQ`, and the last-point bookkeeping equals
the last accepted point of the in-progress stroke. -/
def RecorderInv (s : RecorderState) : Prop :=
  (∀ stroke ∈ s.strokes, stroke.Chain' (fun a b => MIN_DISTANCE_SQ ≤ distSq a b))
  ∧ s.currentStroke.Chain' (fun a b => MIN_DISTANCE_SQ ≤ distSq a b)
  ∧ s.lastPoint = s.currentStroke.getLast?

/-! ## Theorems -/

/-- C1: for every frame with a hand present the drawing signal holds iff the
index finger is extended and middle, ring and pinky are all not extended,
where a finger is extended exactly when its tip y is strictly below its PIP y,
which is strictly below its MCP y; all 16 extended/flexed combinations of the
four fingers behave accordingly, and with no hand the signal is false and the
fingertip is null. -/
theorem classifier_truth_table (w h : ℚ) :
    (∀ landmarks : Hand,
      ((classify (some landmarks) w h).drawingSignal = true ↔
        (((landmarks 8).y < (landmarks 6).y ∧ (landmarks 6).y < (landmarks 5).y) ∧
         ¬((landmarks 12).y < (landmarks 10).y ∧ (landmarks 10).y < (landmarks 9).y) ∧
         ¬((landmarks 16).y < (landmarks 14).y ∧ (landmarks 14).y < (landmarks 13).y) ∧
         ¬((landmarks 20).y < (landmarks 18).y ∧ (landmarks 18).y < (landmarks 17).y))))
    ∧ (∀ indexExt middleExt ringExt pinkyExt : Bool,
        isDrawingNow (mkHand indexExt middleExt ringExt pinkyExt) =
          (indexExt && !middleExt && !ringExt && !pinkyExt))
    ∧ classify none w h = ⟨false, none⟩ := by
  refine ⟨fun landmarks => ?_, by decide, rfl⟩
  show isDrawingNow landmarks = true ↔ _
  simp only [isDrawingNow, isFingerExtended, Bool.and_eq_true, Bool.not_eq_true',
    Bool.and_eq_false_iff, decide_eq_true_eq, decide_eq_false_iff_not]
  tauto

/-- C2: exactly one `onDrawingEnd` and exactly one stabilizer reset occur on
a frame iff the previous frame was drawing and the current frame's signal is
not (a Drawing-to-Idle edge, whether by gesture change or hand loss); the
stored previous-drawing flag always becomes the current signal. -/
theorem drawingEnd_reset_iff_transition (factor w h : ℚ) (s : TrackState)
    (hand : Option Hand) :
    (processResults factor s hand w h).2.endEmits
        = (if s.prevDrawing && !frameSignal hand then 1 else 0)
    ∧ (processResults factor s hand w h).2.resets
        = (if s.prevDrawing && !frameSignal hand then 1 else 0)
    ∧ (processResults factor s hand w h).1.prevDrawing = frameSignal hand := by
  obtain ⟨pd, sm⟩ := s
  cases hand with
  | none => cases pd <;> simp [processResults, frameSignal]
  | some landmarks =>
      cases hd : isDrawingNow landmarks <;> cases pd <;>
        simp [processResults, frameSignal, hd]

/-- C3: the first `smooth` call after construction or reset returns its input
unchanged and seeds the state; every later call moves each axis independently
by `state + factor·(raw − state)` and stores the result; for a constant input
`c` the per-axis distance to `c` is scaled by exactly `(1 − factor)` on each
call after the first, so `n` repeated calls leave the error at
`(1 − factor)^n` of the initial error, and `0 ≤ 1 − factor < 1` for a
responsiveness factor in `(0, 1]`. -/
theorem lightSmoother_spec (factor : ℚ) (h0 : 0 < factor) (h1 : factor ≤ 1)
    (p last c : Point) (n : ℕ) :
    LightSmoother.smooth factor ⟨none⟩ p = (p, ⟨some p⟩)
    ∧ (LightSmoother.smooth factor ⟨some last⟩ p).1
        = ⟨last.x + (p.x - last.x) * factor, last.y + (p.y - last.y) * factor⟩
    ∧ (LightSmoother.smooth factor ⟨some last⟩ p).2
        = ⟨some (LightSmoother.smooth factor ⟨some last⟩ p).1⟩
    ∧ (∃ q : Point, smoothIter factor c ⟨some last⟩ n = ⟨some q⟩
        ∧ q.x - c.x = (1 - factor) ^ n * (last.x - c.x)
        ∧ q.y - c.y = (1 - factor) ^ n * (last.y - c.y))
    ∧ 0 ≤ 1 - factor ∧ 1 - factor < 1 := by
  refine ⟨rfl, rfl, rfl, ?_, by linarith, by linarith⟩
  induction n with
  | zero => exact ⟨last, rfl, by ring, by ring⟩
  | succ n ih =>
      obtain ⟨q, hq, hx, hy⟩ := ih
      refine ⟨⟨q.x + (c.x - q.x) * factor, q.y + (c.y - q.y) * factor⟩, ?_, ?_, ?_⟩
      · simp [smoothIter, hq, LightSmoother.smooth]
      · show q.x + (c.x - q.x) * factor - c.x = _
        linear_combination (1 - factor) * hx
      · show q.y + (c.y - q.y) * factor - c.y = _
        linear_combination (1 - factor) * hy

/-- Witness for C3 at the code's responsiveness factor `0.8`, with a seeded
state `(3, 4)`, constant input `(5, 6)` and two repeated calls. -/
theorem lightSmoother_spec_witness :
    (0 < (4 : ℚ)/5) ∧ ((4 : ℚ)/5 ≤ 1) ∧
    (∃ q : Point, smoothIter (4/5) ⟨5, 6⟩ ⟨some ⟨3, 4⟩⟩ 2 = ⟨some q⟩
      ∧ q.x - 5 = (1 - 4/5) ^ 2 * (3 - 5)
      ∧ q.y - 6 = (1 - 4/5) ^ 2 * (4 - 6)) :=
  ⟨by norm_num, by norm_num,
   (lightSmoother_spec (4/5) (by norm_num) (by norm_num) ⟨1, 2⟩ ⟨3, 4⟩ ⟨5, 6⟩ 2).2.2.2.1⟩

/-- C4: `endStroke` adds the in-progress stroke to the completed collection
exactly when it holds at least 2 points (appended as one new entry equal to
the accepted points), and in every case clears the in-progress stroke and
the last / previous point bookkeeping. -/
theorem endStroke_spec (s : RecorderState) :
    getStrokes (endStroke s)
      = (if 2 ≤ s.currentStroke.length
         then getStrokes s ++ [s.currentStroke]
         else getStrokes s)
    ∧ (endStroke s).currentStroke = []
    ∧ (endStroke s).lastPoint = none
    ∧ (endStroke s).previousPoint = none := by
  refine ⟨?_, rfl, rfl, rfl⟩
  simp only [getStrokes, endStroke]
  exact if_congr (by omega) rfl rfl

/-- The last element of a nonempty list, phrased with `getLastD`. -/
lemma getLast?_cons_getLastD (p : Point) (rest : List Point) :
    (p :: rest).getLast? = some (rest.getLastD p) := by
  induction rest generalizing p with
  | nil => rfl
  | cons q t ih => rw [List.getLast?_cons_cons, ih, List.getLastD_cons]

/-- The pair stage emits two points per adjacent pair. -/
lemma chaikinPairs_length (l : List Point) :
    (chaikinPairs l).length = 2 * (l.length - 1) := by
  induction l with
  | nil => rfl
  | cons p rest ih =>
      cases rest with
      | nil => rfl
      | cons q t =>
          simp only [chaikinPairs, List.length_cons] at ih ⊢
          omega

/-- A Chaikin pass of a nonempty polyline is nonempty. -/
lemma chaikinPass_ne_nil {l : List Point} (h : l ≠ []) : chaikinPass l ≠ [] := by
  cases l with
  | nil => exact absurd rfl h
  | cons p rest => simp [chaikinPass]

/-- A Chaikin pass keeps the first point. -/
lemma chaikinPass_head? {l : List Point} (h : l ≠ []) :
    (chaikinPass l).head? = l.head? := by
  cases l with
  | nil => exact absurd rfl h
  | cons p rest => rfl

/-- A Chaikin pass keeps the last point. -/
lemma chaikinPass_getLast? {l : List Point} (h : l ≠ []) :
    (chaikinPass l).getLast? = l.getLast? := by
  cases l with
  | nil => exact absurd rfl h
  | cons p rest =>
      rw [chaikinPass, ← List.cons_append, List.getLast?_concat,
        getLast?_cons_getLastD]

/-- A Chaikin pass doubles the point count of a nonempty polyline. -/
lemma chaikinPass_length {l : List Point} (h : l ≠ []) :
    (chaikinPass l).length = 2 * l.length := by
  cases l with
  | nil => exact absurd rfl h
  | cons p rest =>
      simp [chaikinPass, chaikinPairs_length]
      omega

/-- Iterated Chaikin passes keep the polyline nonempty, keep both endpoints,
and multiply the point count by `2^m`. -/
lemma chaikinIter_facts (l : List Point) (hl : l ≠ []) (m : ℕ) :
    chaikinPass^[m] l ≠ []
    ∧ (chaikinPass^[m] l).head? = l.head?
    ∧ (chaikinPass^[m] l).getLast? = l.getLast?
    ∧ (chaikinPass^[m] l).length = 2 ^ m * l.length := by
  induction m with
  | zero => simpa using hl
  | succ m ih =>
      obtain ⟨h1, h2, h3, h4⟩ := ih
      rw [Function.iterate_succ_apply']
      exact ⟨chaikinPass_ne_nil h1, (chaikinPass_head? h1).trans h2,
        (chaikinPass_getLast? h1).trans h3,
        by rw [chaikinPass_length h1, h4]; ring⟩

/-- C6: for every input of at least 3 points and every iteration count, the
smoothed output keeps the input's first and last points; each iteration is
one corner-cutting pass (replacing every adjacent pair with its two weighted
cut points while keeping the endpoints); any input of fewer than 3 points is
returned unchanged. -/
theorem chaikin_endpoints (points : List Point) (n : ℕ) (h3 : 3 ≤ points.length) :
    (chaikinSmooth points n).head? = points.head?
    ∧ (chaikinSmooth points n).getLast? = points.getLast?
    ∧ chaikinSmooth points (n + 1) = chaikinPass (chaikinSmooth points n)
    ∧ ∀ qs : List Point, qs.length < 3 → chaikinSmooth qs n = qs := by
  have hne : points ≠ [] := by
    intro h
    rw [h] at h3
    simp at h3
  have hlt : ¬points.length < 3 := by omega
  have hfacts := chaikinIter_facts points hne n
  refine ⟨?_, ?_, ?_, fun qs hq => by simp [chaikinSmooth, if_pos hq]⟩
  · simp only [chaikinSmooth, if_neg hlt]
    exact hfacts.2.1
  · simp only [chaikinSmooth, if_neg hlt]
    exact hfacts.2.2.1
  · simp only [chaikinSmooth, if_neg hlt]
    exact Function.iterate_succ_apply' chaikinPass n points

/-- Witness for C6 on a concrete 3-point stroke with 2 iterations. -/
theorem chaikin_endpoints_witness :
    3 ≤ ([⟨0, 0⟩, ⟨1, 1⟩, ⟨2, 0⟩] : List Point).length
    ∧ ((chaikinSmooth [⟨0, 0⟩, ⟨1, 1⟩, ⟨2, 0⟩] 2).head?
        = ([⟨0, 0⟩, ⟨1, 1⟩, ⟨2, 0⟩] : List Point).head?
      ∧ (chaikinSmooth [⟨0, 0⟩, ⟨1, 1⟩, ⟨2, 0⟩] 2).getLast?
        = ([⟨0, 0⟩, ⟨1, 1⟩, ⟨2, 0⟩] : List Point).getLast?
      ∧ chaikinSmooth [⟨0, 0⟩, ⟨1, 1⟩, ⟨2, 0⟩] 3
        = chaikinPass (chaikinSmooth [⟨0, 0⟩, ⟨1, 1⟩, ⟨2, 0⟩] 2)
      ∧ ∀ qs : List Point, qs.length < 3 → chaikinSmooth qs 2 = qs) :=
  ⟨by decide, chaikin_endpoints [⟨0, 0⟩, ⟨1, 1⟩, ⟨2, 0⟩] 2 (by decide)⟩

/-- C7: the downsampling stage keeps the input unchanged when it has at most
30 points, and otherwise selects exactly 30 points at evenly spaced rounded
clamped indices; the output length is always `min (input length) 30`, hence
at most 30. -/
theorem downsample_spec (points : List Point) :
    (downsample points 30).length = min points.length 30
    ∧ downsample points 30
        = (if points.length ≤ 30 then points
           else (List.range 30).map
             (fun i => points.getD (downsampleIdx points.length 30 i) ⟨0, 0⟩)) := by
  refine ⟨?_, rfl⟩
  by_cases h : points.length ≤ 30
  · simp only [downsample, if_pos h]
    omega
  · simp only [downsample, if_neg h, List.length_map, List.length_range]
    omega

/-- C8: the mesh builder yields no mesh (and no failure) for every stroke of
fewer than 3 points — in particular for a 2-point stroke — and never yields
a mesh with fewer than 2 synthesized points; each stroke's mesh in the scene
depends only on that stroke and its index, so one stroke producing no mesh
leaves every other stroke's mesh unchanged. -/
theorem mesh_null_spec :
    (∀ (stroke : List Point) (sx sy z : ℚ),
        stroke.length < 3 → buildGeometry stroke sx sy z = none)
    ∧ (∀ (p q : Point) (sx sy z : ℚ), buildGeometry [p, q] sx sy z = none)
    ∧ (∀ (stroke : List Point) (sx sy z : ℚ),
        ((buildGeometry stroke sx sy z).all fun m => decide (2 ≤ m.points2D.length))
          = true)
    ∧ (∀ (strokes : List (List Point)) (w h : ℚ) (j : ℕ),
        (sceneMeshes strokes w h).get? j
          = (strokes.get? j).map (fun stroke => clayGeometry stroke j w h)) := by
  have hshort : ∀ (stroke : List Point) (sx sy z : ℚ),
      stroke.length < 3 → buildGeometry stroke sx sy z = none := by
    intro stroke sx sy z hlen
    simp [buildGeometry, if_pos hlen]
  refine ⟨hshort, fun p q sx sy z => hshort [p, q] sx sy z (by simp), ?_, ?_⟩
  · intro stroke sx sy z
    simp only [buildGeometry]
    split
    · rfl
    · split
      · rfl
      · rename_i hge
        simp only [Option.all_some, decide_eq_true_eq]
        omega
  · intro strokes w h j
    simp [sceneMeshes, List.mapIdx_eq_enum_map, List.get?_eq_getElem?,
      List.getElem?_map, List.getElem?_enum, Option.map_map, Function.comp_def,
      Function.uncurry]

/-- Witness for C8 on a concrete 2-point stroke. -/
theorem mesh_null_spec_witness :
    ([⟨0, 0⟩, ⟨9, 9⟩] : List Point).length < 3
    ∧ buildGeometry [⟨0, 0⟩, ⟨9, 9⟩] 1 1 0 = none :=
  ⟨by decide, mesh_null_spec.1 [⟨0, 0⟩, ⟨9, 9⟩] 1 1 0 (by decide)⟩

/-- Every recorder operation preserves the spacing invariant. -/
lemma recorderInv_applyOp {s : RecorderState} (op : RecorderOp)
    (h : RecorderInv s) : RecorderInv (applyOp s op) := by
  obtain ⟨hstrokes, hcur, hlast⟩ := h
  cases op with
  | add p =>
      cases hl : s.lastPoint with
      | none =>
          have hnil : s.currentStroke = [] := by
            rw [hl] at hlast
            exact List.getLast?_eq_none_iff.mp hlast.symm
          simp only [applyOp, addPoint, hl]
          exact ⟨hstrokes, by simp [hnil], by simp [hnil]⟩
      | some last =>
          simp only [applyOp, addPoint, hl]
          by_cases hd : distSq last p < MIN_DISTANCE_SQ
          · rw [if_pos hd]
            exact ⟨hstrokes, hcur, hlast⟩
          · rw [if_neg hd]
            refine ⟨hstrokes, ?_, ?_⟩
            · show (s.currentStroke ++ [p]).Chain' _
              rw [List.chain'_append]
              refine ⟨hcur, List.chain'_singleton p, ?_⟩
              intro x hx y hy
              rw [← hlast, hl] at hx
              simp only [Option.mem_def, Option.some.injEq] at hx
              simp only [List.head?_cons, Option.mem_def, Option.some.injEq] at hy
              subst hx
              subst hy
              exact not_lt.mp hd
            · show some p = (s.currentStroke ++ [p]).getLast?
              rw [List.getLast?_concat]
  | endOp =>
      refine ⟨?_, List.chain'_nil, rfl⟩
      intro stroke hmem
      have hmem2 : stroke ∈ (if 1 < s.currentStroke.length
          then s.strokes ++ [s.currentStroke] else s.strokes) := hmem
      by_cases hlen : 1 < s.currentStroke.length
      · rw [if_pos hlen] at hmem2
        rcases List.mem_append.mp hmem2 with hold | hnew
        · exact hstrokes stroke hold
        · rw [List.mem_singleton.mp hnew]
          exact hcur
      · rw [if_neg hlen] at hmem2
        exact hstrokes stroke hmem2
  | clearOp =>
      exact ⟨by simp [applyOp, clear, initialRecorder], List.chain'_nil, rfl⟩

/-- C10: after any sequence of `addPoint` / `endStroke` / `clear` operations
from the initial recorder state, every pair of consecutive points in every
completed stroke returned by `getStrokes`, and in the in-progress stroke,
lies at squared distance at least `MIN_DISTANCE_SQ` (4, about 2px). -/
theorem recorder_min_distance_invariant (ops : List RecorderOp) :
    (∀ stroke ∈ getStrokes (runOps initialRecorder ops),
        stroke.Chain' (fun a b => MIN_DISTANCE_SQ ≤ distSq a b))
    ∧ (runOps initialRecorder ops).currentStroke.Chain'
        (fun a b => MIN_DISTANCE_SQ ≤ distSq a b) := by
  have main : ∀ (l : List RecorderOp) (s : RecorderState),
      RecorderInv s → RecorderInv (runOps s l) := by
    intro l
    induction l with
    | nil => exact fun s h => h
    | cons op rest ih => exact fun s h => ih _ (recorderInv_applyOp op h)
  have h0 : RecorderInv initialRecorder :=
    ⟨by simp [initialRecorder], List.chain'_nil, rfl⟩
  obtain ⟨h1, h2, _⟩ := main ops initialRecorder h0
  exact ⟨h1, h2⟩

/-- Witness for C10: a concrete run producing one completed stroke whose
consecutive points are at squared distance 25 ≥ 4. -/
theorem recorder_min_distance_invariant_witness :
    ([⟨0, 0⟩, ⟨5, 0⟩] : List Point)
        ∈ getStrokes (runOps initialRecorder
            [.add ⟨0, 0⟩, .add ⟨5, 0⟩, RecorderOp.endOp])
    ∧ ([⟨0, 0⟩, ⟨5, 0⟩] : List Point).Chain'
        (fun a b => MIN_DISTANCE_SQ ≤ distSq a b) := by
  have hmem : ([⟨0, 0⟩, ⟨5, 0⟩] : List Point)
      ∈ getStrokes (runOps initialRecorder
          [.add ⟨0, 0⟩, .add ⟨5, 0⟩, RecorderOp.endOp]) := by
    norm_num [getStrokes, runOps, applyOp, addPoint, endStroke, initialRecorder,
      distSq, MIN_DISTANCE_SQ, List.foldl]
  exact ⟨hmem,
    (recorder_min_distance_invariant [.add ⟨0, 0⟩, .add ⟨5, 0⟩, RecorderOp.endOp]).1
      [⟨0, 0⟩, ⟨5, 0⟩] hmem⟩

/-- C5 (amended): while the gesture signal holds, `onDrawingPoint` fires
exactly once per frame with the stabilized point, independently of the
recorder's minimum-distance filter; the filter instead governs storage:
`addPoint` leaves the recorder unchanged when the new point is within the
threshold of the last accepted point. -/
theorem drawingPoint_per_frame (factor w h : ℚ) (ts : TrackState)
    (hand : Option Hand) (rs : RecorderState) (last p : Point)
    (hl : rs.lastPoint = some last) (hd : distSq last p < MIN_DISTANCE_SQ) :
    (processResults factor ts hand w h).2.pointEmits.length
      = (if frameSignal hand = true then 1 else 0)
    ∧ addPoint rs p = rs := by
  constructor
  · obtain ⟨pd, sm⟩ := ts
    cases hand with
    | none => cases pd <;> simp [processResults, frameSignal]
    | some landmarks =>
        cases hdn : isDrawingNow landmarks <;> cases pd <;>
          simp [processResults, frameSignal, hdn]
  · simp [addPoint, hl, hd]

/-- Witness for the amended C5: a drawing frame emits one point, and a point
at squared distance 1 < 4 from the last accepted point is not stored. -/
theorem drawingPoint_per_frame_witness :
    (⟨[], [⟨0, 0⟩], some ⟨0, 0⟩, none⟩ : RecorderState).lastPoint = some ⟨0, 0⟩
    ∧ distSq ⟨0, 0⟩ ⟨1, 0⟩ < MIN_DISTANCE_SQ
    ∧ ((processResults (4/5) ⟨false, ⟨none⟩⟩ (some (mkHand true false false false))
          100 100).2.pointEmits.length
        = (if frameSignal (some (mkHand true false false false)) = true then 1 else 0)
      ∧ addPoint (⟨[], [⟨0, 0⟩], some ⟨0, 0⟩, none⟩ : RecorderState) ⟨1, 0⟩
        = (⟨[], [⟨0, 0⟩], some ⟨0, 0⟩, none⟩ : RecorderState)) := by
  have hd : distSq ⟨0, 0⟩ ⟨1, 0⟩ < MIN_DISTANCE_SQ := by
    norm_num [distSq, MIN_DISTANCE_SQ]
  exact ⟨rfl, hd,
    drawingPoint_per_frame (4/5) 100 100 ⟨false, ⟨none⟩⟩
      (some (mkHand true false false false)) _ ⟨0, 0⟩ ⟨1, 0⟩ rfl hd⟩

/-- C5 counterexample: with the index-only pose held at a fixed position for
two frames, the second frame's stabilized point is rejected by the recorder's
minimum-distance filter (squared distance 0 < 4, the in-progress stroke does
not grow), yet `onDrawingPoint` is still emitted on that frame — so an
emission does occur for a rejected point, contrary to the claim. -/
theorem drawingPoint_fires_despite_rejection :
    demoFrame2.2.pointEmits = [⟨0, 100⟩]
    ∧ demoFrame1.1.2.lastPoint = some ⟨0, 100⟩
    ∧ distSq ⟨0, 100⟩ ⟨0, 100⟩ < MIN_DISTANCE_SQ
    ∧ demoFrame2.1.2.currentStroke = demoFrame1.1.2.currentStroke
    ∧ demoFrame1.1.2.currentStroke.length = 1 := by
  have hdraw : isDrawingNow (mkHand true false false false) = true := by decide
  have hm8 : mkHand true false false false 8 = ⟨0, 1⟩ := by decide
  have hraw : rawFingertip (mkHand true false false false) 100 100 = ⟨0, 100⟩ := by
    rw [rawFingertip, hm8]
    norm_num
  have h1 : demoFrame1
      = ((⟨true, ⟨some ⟨0, 100⟩⟩⟩, ⟨[], [⟨0, 100⟩], some ⟨0, 100⟩, none⟩),
         ⟨[⟨0, 100⟩], 0, 0⟩) := by
    simp [demoFrame1, demoHand, pipelineStep, processResults, hdraw, hraw,
      initialRecorder, addPoint, LightSmoother.smooth]
  have h2 : demoFrame2
      = ((⟨true, ⟨some ⟨0, 100⟩⟩⟩, ⟨[], [⟨0, 100⟩], some ⟨0, 100⟩, none⟩),
         ⟨[⟨0, 100⟩], 0, 0⟩) := by
    simp only [demoFrame2, h1]
    norm_num [demoHand, pipelineStep, processResults, hdraw, hraw, addPoint,
      LightSmoother.smooth, distSq, MIN_DISTANCE_SQ]
  refine ⟨by rw [h2], by rw [h1], by norm_num [distSq, MIN_DISTANCE_SQ],
    by rw [h1, h2], by rw [h1]; rfl⟩

/-- The normalize-and-downsample stage keeps `min (input length) 30` points. -/
lemma clayNormalize_length (stroke : List Point) (sx sy : ℚ) :
    (clayNormalize stroke sx sy).length = min stroke.length 30 := by
  simp [clayNormalize]

/-- On a 3-point stroke the normalize stage is exactly the pointwise
coordinate map (no downsampling occurs). -/
lemma clayNormalize_three (p q r : Point) (sx sy : ℚ) :
    clayNormalize [p, q, r] sx sy =
      [⟨p.x * sx - 5/2, -(p.y * sy - 2)⟩,
       ⟨q.x * sx - 5/2, -(q.y * sy - 2)⟩,
       ⟨r.x * sx - 5/2, -(r.y * sy - 2)⟩] := by
  have h0 : (jsRound (0 : ℚ)).toNat = 0 := by
    have h : jsRound (0 : ℚ) = 0 := by norm_num [jsRound]
    rw [h]; rfl
  have h1 : (jsRound (1 : ℚ)).toNat = 1 := by
    have h : jsRound (1 : ℚ) = 1 := by norm_num [jsRound]
    rw [h]; rfl
  have h2 : (jsRound (2 : ℚ)).toNat = 2 := by
    have h : jsRound (2 : ℚ) = 2 := by norm_num [jsRound]
    rw [h]; rfl
  simp [clayNormalize, List.range_succ, h0, h1, h2]

/-- A 3-point stroke always produces a mesh, and the head of its smoothed
point list is the head of its normalized point list. -/
lemma buildGeometry_three (stroke : List Point) (sx sy z : ℚ)
    (h3 : stroke.length = 3) :
    ∃ m : MeshSpec, buildGeometry stroke sx sy z = some m
      ∧ m.points2D.head? = (clayNormalize stroke sx sy).head? := by
  have hnlen : (clayNormalize stroke sx sy).length = 3 := by
    rw [clayNormalize_length, h3]
    rfl
  have hne : clayNormalize stroke sx sy ≠ [] := by
    intro hh
    rw [hh] at hnlen
    simp at hnlen
  have hfacts := chaikinIter_facts (clayNormalize stroke sx sy) hne 3
  have hsm : chaikinSmooth (clayNormalize stroke sx sy) 3
      = chaikinPass^[3] (clayNormalize stroke sx sy) := by
    simp [chaikinSmooth, hnlen]
  have hlen24 : (chaikinSmooth (clayNormalize stroke sx sy) 3).length = 24 := by
    rw [hsm, hfacts.2.2.2, hnlen]
    norm_num
  refine ⟨⟨chaikinSmooth (clayNormalize stroke sx sy) 3, z,
      min ((chaikinSmooth (clayNormalize stroke sx sy) 3).length * 3) 64,
      TUBE_RADIUS, RADIAL_SEGMENTS⟩, ?_, ?_⟩
  · simp only [buildGeometry]
    rw [if_neg (by omega), if_neg (by omega)]
  · rw [hsm]
    exact hfacts.2.1

/-- C9 (amended): the tube geometry is a pure function of the `useMemo`
dependency values — the stroke's point list and the derived `scaleX`,
`scaleY` and `zOffset` — so it is identical across frames whenever those are
unchanged; it does not otherwise depend on the index or the canvas size. -/
theorem geometry_stable_in_deps (s1 s2 : List Point) (i1 i2 : ℕ)
    (w1 h1 w2 h2 : ℚ) (hs : s1 = s2) (hx : 5 / w1 = 5 / w2)
    (hy : 4 / h1 = 4 / h2) (hz : (i1 : ℚ) * (1/2) = (i2 : ℚ) * (1/2)) :
    clayGeometry s1 i1 w1 h1 = clayGeometry s2 i2 w2 h2 := by
  simp only [clayGeometry, hs, hx, hy, hz]

/-- Witness for the amended C9 at a concrete stroke, index and canvas size. -/
theorem geometry_stable_in_deps_witness :
    ([⟨0, 0⟩, ⟨3, 0⟩, ⟨6, 0⟩] : List Point) = [⟨0, 0⟩, ⟨3, 0⟩, ⟨6, 0⟩]
    ∧ (5 : ℚ) / 100 = 5 / 100
    ∧ (4 : ℚ) / 100 = 4 / 100
    ∧ ((2 : ℕ) : ℚ) * (1/2) = ((2 : ℕ) : ℚ) * (1/2)
    ∧ clayGeometry [⟨0, 0⟩, ⟨3, 0⟩, ⟨6, 0⟩] 2 100 100
      = clayGeometry [⟨0, 0⟩, ⟨3, 0⟩, ⟨6, 0⟩] 2 100 100 :=
  ⟨rfl, rfl, rfl, rfl,
   geometry_stable_in_deps [⟨0, 0⟩, ⟨3, 0⟩, ⟨6, 0⟩] [⟨0, 0⟩, ⟨3, 0⟩, ⟨6, 0⟩]
     2 2 100 100 100 100 rfl rfl rfl rfl⟩

/-- C9 counterexample: two strokes with the same index and the same point
count but different contents produce different tube geometry, so the mesh is
not determined by the pair (strokeIndex, pointCount), and regeneration
cannot be keyed by that pair alone — the code's memoization instead depends
on the stroke's point data itself. -/
theorem geometry_not_keyed_by_index_pointCount :
    strokeA.length = strokeB.length
    ∧ clayGeometry strokeA 0 100 100 ≠ clayGeometry strokeB 0 100 100 := by
  refine ⟨rfl, ?_⟩
  intro heq
  obtain ⟨mA, hAeq, hAhead⟩ :=
    buildGeometry_three strokeA (5/100) (4/100) (((0 : ℕ) : ℚ) * (1/2)) rfl
  obtain ⟨mB, hBeq, hBhead⟩ :=
    buildGeometry_three strokeB (5/100) (4/100) (((0 : ℕ) : ℚ) * (1/2)) rfl
  simp only [clayGeometry] at heq
  rw [hAeq, hBeq] at heq
  have hmm : mA = mB := Option.some.inj heq
  have hheads : (clayNormalize strokeA (5/100) (4/100)).head?
      = (clayNormalize strokeB (5/100) (4/100)).head? := by
    rw [← hAhead, ← hBhead, hmm]
  simp only [strokeA, strokeB] at hheads
  rw [clayNormalize_three, clayNormalize_three] at hheads
  norm_num at hheads

end AirCanvas
